import Mathlib

/-!
Verification of the RETS synchronization service (PremoWeb/RETS.app).

Shallow embedding of the parts of the TypeScript source relevant to the
checked claims:

* `src/lib/db/tables/schema.ts` — `getRetsToMySQLType`;
* `src/lib/rets/retsParser.ts` — `RetsParser.parse`, `RetsParser.isUnauthorizedQuery`;
* `src/service.ts` — `shouldRunFullSync`, `loadLockoutSet`/`saveLockoutSet`,
  `fetchRetsUpdates` (pagination loop), `syncData` (per-pair sync cycle);
* `src/scripts/syncPhotosToObjectStorage.ts` — `uploadFile` retry loop;
* `src/lib/rets/propertyPhotos.ts` — `getPropertyPhotos` multipart handling;
* photo helper (`getPhoto`, `parseMultipartResponse`) and the lifecycle
  reconciler (`checkPropertyStatus`) from the unnamed service modules.

JavaScript strings are modelled as Lean `String`/`List Char`; binary buffers
as `List Char` (one character per byte); JS numbers as `ℚ` (exact rationals,
their values in these code paths stay well inside double precision);
JS `Set`/`Map` as insertion-ordered duplicate-free lists; fallible code as
`Except`/`Option`.  Regular-expression searches from the source are embedded
as explicit left-to-right scans realizing the leftmost-match semantics of the
concrete patterns used (each pattern's character classes exclude its closing
delimiters, so the greedy/lazy matches are the deterministic scans written
here).
-/

namespace RetsApp

/-! ## JavaScript string primitives -/

/-- Rest of the list after the first occurrence of `sub` (`indexOf` + skip). -/
def afterSub (sub : List Char) : List Char → Option (List Char)
  | [] => if sub.isPrefixOf ([] : List Char) then some [] else none
  | c :: rest =>
    if sub.isPrefixOf (c :: rest) then some ((c :: rest).drop sub.length)
    else afterSub sub rest

/-- Model of `String.prototype.includes`: `sub` occurs contiguously in `s`. -/
def jsIncludes (s sub : String) : Bool :=
  (afterSub sub.data s.data).isSome

/-- ASCII lowering of one character, the fragment of `toLowerCase` exercised
by the RETS metadata vocabulary. -/
def jsToLowerChar (c : Char) : Char :=
  if 'A' ≤ c ∧ c ≤ 'Z' then Char.ofNat (c.toNat + 32) else c

/-- Model of `String.prototype.toLowerCase` (ASCII fragment). -/
def jsToLower (s : String) : String :=
  String.mk (s.data.map jsToLowerChar)

/-- Whitespace recognized by `trim` / the regex class `\s` (ASCII fragment;
the inputs manipulated by this service are ASCII). -/
def isJsSpace (c : Char) : Bool :=
  c = ' ' ∨ c = '\t' ∨ c = '\n' ∨ c = '\r' ∨ c = '\x0b' ∨ c = '\x0c'

/-- Model of `String.prototype.trim` on character lists. -/
def jsTrim (l : List Char) : List Char :=
  ((l.dropWhile isJsSpace).reverse.dropWhile isJsSpace).reverse

/-- Split on a single-character separator, JS `split(sep)` (every occurrence
separates; empty segments preserved). -/
def splitOnChar (sep : Char) : List Char → List (List Char)
  | [] => [[]]
  | c :: rest =>
    match splitOnChar sep rest with
    | [] => [[]]
    | g :: gs => if c = sep then [] :: g :: gs else (c :: g) :: gs

/-- Split on a multi-character separator, JS `split(sep)` with a literal
string separator (nonempty separators only; leftmost, non-overlapping). -/
def splitOnSub (sep : List Char) : List Char → List (List Char)
  | [] => [[]]
  | c :: rest =>
    if h : sep ≠ [] ∧ sep.isPrefixOf (c :: rest) then
      match splitOnSub sep ((c :: rest).drop sep.length) with
      | [] => [[]]
      | gs => [] :: gs
    else
      match splitOnSub sep rest with
      | [] => [[]]
      | g :: gs => (c :: g) :: gs
  termination_by l => l.length
  decreasing_by
  · have hs : 1 ≤ sep.length := by
      cases hsep : sep with
      | nil => exact absurd hsep h.1
      | cons a l => simp
    simp only [List.length_drop, List.length_cons]
    omega
  · simp


/-- Split at the first occurrence of `sub`: the part before it and the part
after it ( `none` when `sub` does not occur). -/
def splitAtSub (sub : List Char) : List Char → Option (List Char × List Char)
  | [] => if sub.isPrefixOf ([] : List Char) then some ([], []) else none
  | c :: rest =>
    if sub.isPrefixOf (c :: rest) then some ([], (c :: rest).drop sub.length)
    else (splitAtSub sub rest).map (fun p => (c :: p.1, p.2))

/-! ## Schema generator (`src/lib/db/tables/schema.ts`)

`getRetsToMySQLType` receives a RETS field definition.  `MaxLength` and
`Precision` are modelled as the already-`parseInt`-ed numeric views
(`none` covers both an absent attribute and a non-numeric one: `NaN`
compares false in every branch below, landing in the same fallback arm
as `undefined`). -/

structure FieldDef where
  DataType : Option String
  Interpretation : Option String
  MaxLength : Option Int
  Precision : Option Int

/-- Embedding of `getRetsToMySQLType` (schema.ts lines 2–46), translated
branch for branch from the source; the `switch` on the lowered data type is
rendered as its sequential string comparisons. -/
def getRetsToMySQLType (field : FieldDef) : String :=
  if field.Interpretation = some "LookupMulti" then "TEXT"
  else if field.Interpretation = some "Lookup" then "VARCHAR(50)"
  else if field.DataType.map jsToLower = some "int"
      ∨ field.DataType.map jsToLower = some "small"
      ∨ field.DataType.map jsToLower = some "tiny" then "INT"
  else if field.DataType.map jsToLower = some "long" then "BIGINT"
  else if field.DataType.map jsToLower = some "datetime" then
    "DATETIME default '0000-00-00 00:00:00' NOT NULL"
  else if field.DataType.map jsToLower = some "character" then
    match field.MaxLength with
    | some n =>
      if n > 0 ∧ n ≤ 255 then s!"VARCHAR({n})"
      else if n > 255 then "TEXT"
      else "TEXT"
    | none => "TEXT"
  else if field.DataType.map jsToLower = some "decimal" then
    match field.MaxLength, field.Precision with
    | some m, some p =>
      if m > 0 ∧ p ≥ 0 ∧ m > p then s!"DECIMAL({m},{p})"
      else "DECIMAL(10,2)"
    | _, _ => "DECIMAL(10,2)"
  else if field.DataType.map jsToLower = some "boolean" then "CHAR(1)"
  else if field.DataType.map jsToLower = some "date" then
    "DATE default '0000-00-00' NOT NULL"
  else if field.DataType.map jsToLower = some "time" then
    "TIME default '00:00:00' NOT NULL"
  else "TEXT"

/-- Type table exactly as the specification words it: lookups override, then
per-data-type rows with the spec's side conditions
(`1 ≤ maxLen ≤ 255`, `maxLen > precision ≥ 0`). -/
def specTypeTable (field : FieldDef) : String :=
  if field.Interpretation = some "LookupMulti" then "TEXT"
  else if field.Interpretation = some "Lookup" then "VARCHAR(50)"
  else if field.DataType.map jsToLower = some "int"
      ∨ field.DataType.map jsToLower = some "small"
      ∨ field.DataType.map jsToLower = some "tiny" then "INT"
  else if field.DataType.map jsToLower = some "long" then "BIGINT"
  else if field.DataType.map jsToLower = some "datetime" then
    "DATETIME default '0000-00-00 00:00:00' NOT NULL"
  else if field.DataType.map jsToLower = some "character" then
    match field.MaxLength with
    | some n => if 1 ≤ n ∧ n ≤ 255 then s!"VARCHAR({n})" else "TEXT"
    | none => "TEXT"
  else if field.DataType.map jsToLower = some "decimal" then
    match field.MaxLength, field.Precision with
    | some m, some p =>
      if m > p ∧ p ≥ 0 then s!"DECIMAL({m},{p})" else "DECIMAL(10,2)"
    | _, _ => "DECIMAL(10,2)"
  else if field.DataType.map jsToLower = some "boolean" then "CHAR(1)"
  else if field.DataType.map jsToLower = some "date" then
    "DATE default '0000-00-00' NOT NULL"
  else if field.DataType.map jsToLower = some "time" then
    "TIME default '00:00:00' NOT NULL"
  else "TEXT"

/-! ## RETS response parser (`src/lib/rets/retsParser.ts`)

The parser is regex-driven in the source.  Each concrete pattern is embedded
as a deterministic left-to-right scan; the bracketed character classes of the
source patterns exclude their closing delimiters, so greedy matching plus
backtracking coincides with the scans below. -/

/-- Attempt of `pre` + a nonempty capture of characters not satisfying
`stop` + the literal `closeLit` at the head of `l`; returns the capture and
the rest after the close. -/
def tryCap (pre : List Char) (stop : Char → Bool) (closeLit : List Char)
    (l : List Char) : Option (List Char × List Char) :=
  if pre.isPrefixOf l then
    let r := l.drop pre.length
    let cap := r.takeWhile (fun c => !stop c)
    if cap.isEmpty then none
    else
      let r2 := r.drop cap.length
      if closeLit.isPrefixOf r2 then some (cap, r2.drop closeLit.length)
      else none
  else none

/-- Leftmost match of the pattern of `tryCap` anywhere in the input
(the regex `pre([^stop]+)closeLit`). -/
def scanCap (pre : List Char) (stop : Char → Bool) (closeLit : List Char) :
    List Char → Option (List Char × List Char)
  | [] => none
  | c :: rest =>
    match tryCap pre stop closeLit (c :: rest) with
    | some r => some r
    | none => scanCap pre stop closeLit rest

/-- Leftmost match of `pre([^stop]+)` (no closing literal), the shape of
`/<METADATA-([^>\s]+)/`. -/
def scanCapNoClose (pre : List Char) (stop : Char → Bool) :
    List Char → Option (List Char)
  | [] => none
  | c :: rest =>
    if pre.isPrefixOf (c :: rest) then
      let cap := ((c :: rest).drop pre.length).takeWhile (fun x => !stop x)
      if cap.isEmpty then scanCapNoClose pre stop rest else some cap
    else scanCapNoClose pre stop rest

/-- All non-overlapping matches of `pre([^stop]+)closeLit`, left to right
(a `g`-flag regex loop); `fuel` bounds the iteration. -/
def allScanCap (pre : List Char) (stop : Char → Bool) (closeLit : List Char) :
    Nat → List Char → List (List Char)
  | 0, _ => []
  | fuel + 1, l =>
    match scanCap pre stop closeLit l with
    | some (cap, rest) => cap :: allScanCap pre stop closeLit fuel rest
    | none => []

/-- Leftmost match of `openT([\s\S]*?)closeT` (lazy body): the first
occurrence of `openT`, then the body up to the first following `closeT`;
returns the body and the rest after `closeT`. -/
def lazyBetween (openT closeT : List Char) (l : List Char) :
    Option (List Char × List Char) :=
  match afterSub openT l with
  | none => none
  | some r => splitAtSub closeT r

/-- All non-overlapping lazy-body matches (`matchAll`). -/
def allLazyBetween (openT closeT : List Char) :
    Nat → List Char → List (List Char)
  | 0, _ => []
  | fuel + 1, l =>
    match lazyBetween openT closeT l with
    | some (content, rest) => content :: allLazyBetween openT closeT fuel rest
    | none => []

/-- The regex `/ReplyCode="([^"]+)"/` of the source. -/
def findReplyCode (l : List Char) : Option (List Char) :=
  (scanCap "ReplyCode=\"".data (· == '"') ['"'] l).map Prod.fst

/-- The regex `/ReplyText="([^"]+)"/` of the source. -/
def findReplyText (l : List Char) : Option (List Char) :=
  (scanCap "ReplyText=\"".data (· == '"') ['"'] l).map Prod.fst

/-- One record parsed out of a `<DATA>` line: a JS object modelled as an
insertion-ordered association list. -/
abbrev RetsRecord := List (String × String)

/-- JS `obj[k] = v`: overwrite in place, or append a new key. -/
def jsObjectSet (obj : List (String × String)) (k v : String) :
    List (String × String) :=
  if obj.any (fun p => p.1 == k) then
    obj.map (fun p => if p.1 == k then (k, v) else p)
  else obj ++ [(k, v)]

/-- Digits to a natural number (`parseInt` on a `\d+` capture). -/
def natOfDigits (ds : List Char) : Nat :=
  ds.foldl (fun n c => 10 * n + (c.toNat - 48)) 0

/-- Embedding of `RetsParser.parseTabDelimitedData`: columns split on tabs,
trimmed, empties dropped; values split on tabs and trimmed; the record maps
each column positionally, missing values becoming `""`. -/
def parseTabDelimitedData (columns data : List Char) : RetsRecord :=
  let columnNames :=
    ((splitOnChar '\t' columns).map jsTrim).filter (fun col => !col.isEmpty)
  let values := (splitOnChar '\t' data).map jsTrim
  columnNames.enum.foldl
    (fun acc p => jsObjectSet acc (String.mk p.2) (String.mk (values.getD p.1 [])))
    []

/-- JS `\w` character class. -/
def isJsWordChar (c : Char) : Bool :=
  c.isAlphanum || c == '_'

/-- One match of `/(\w+)="([^"]+)"/` at the head of the input. -/
def tryAttr (l : List Char) : Option ((List Char × List Char) × List Char) :=
  let cap := l.takeWhile isJsWordChar
  if cap.isEmpty then none
  else
    let r := l.drop cap.length
    if "=\"".data.isPrefixOf r then
      let v := (r.drop 2).takeWhile (fun c => c != '"')
      if v.isEmpty then none
      else
        match (r.drop 2).drop v.length with
        | '"' :: rest => some ((cap, v), rest)
        | _ => none
    else none

/-- All matches of `/(\w+)="([^"]+)"/g`, left to right. -/
def scanAttrs : Nat → List Char → List (List Char × List Char)
  | 0, _ => []
  | _, [] => []
  | fuel + 1, c :: rest =>
    match tryAttr (c :: rest) with
    | some (kv, r) => kv :: scanAttrs fuel r
    | none => scanAttrs (fuel + 1) rest
  termination_by fuel l => (fuel, l.length)

/-- Embedding of `RetsParser.parseAttributes`: each `\w+="…"` match has its
quotes removed and is split on `=`; the first two segments become the
key/value pair. -/
def parseAttributes (tag : List Char) : List (String × String) :=
  (scanAttrs tag.length tag).foldl
    (fun acc kv =>
      let parts := splitOnChar '=' (kv.1 ++ '=' :: kv.2)
      match parts with
      | key :: value :: _ => jsObjectSet acc (String.mk key) (String.mk value)
      | _ => acc)
    []

/-- Metadata block of a parsed metadata response (`Type`, tag attributes and
`<DATA>` rows). -/
structure MetadataBlock where
  MType : String
  attrs : List (String × String)
  Data : List RetsRecord
deriving DecidableEq

/-- Parsed RETS response (the `RetsResponse` interface of the source; the
optional members are `none` in the shapes that do not produce them). -/
structure RetsResponse where
  ReplyCode : String
  ReplyText : String
  retsResponse : Option (List (String × String))
  metadata : Option MetadataBlock
  count : Option Nat
  records : Option (List RetsRecord)
deriving DecidableEq

/-- The `parsed.records || []` read used by the sync engine. -/
def RetsResponse.recordsD (r : RetsResponse) : List RetsRecord :=
  r.records.getD []

namespace RetsParser

/-- Embedding of `RetsParser.parseLoginResponse`: both reply attributes are
required; the optional `<RETS-RESPONSE>` body is parsed into capability
URLs line by line (`KEY=VALUE`, `Info*` keys skipped). -/
def parseLoginResponse (x : List Char) : Except String RetsResponse :=
  match findReplyCode x, findReplyText x with
  | some rc, some rt =>
    let urls :=
      match lazyBetween "<RETS-RESPONSE>".data "</RETS-RESPONSE>".data x with
      | some (content, _) =>
        some ((splitOnChar '\n' content).foldl
          (fun acc line =>
            if line.contains '=' then
              match (splitOnChar '=' line).map jsTrim with
              | key :: value :: _ =>
                if !key.isEmpty ∧ !value.isEmpty ∧ ¬ ("Info".data.isPrefixOf key)
                then jsObjectSet acc (String.mk key) (String.mk value)
                else acc
              | _ => acc
            else acc)
          [])
      | none => none
    Except.ok ⟨String.mk rc, String.mk rt, urls, none, none, none⟩
  | _, _ => Except.error "Invalid RETS response format"

/-- Embedding of `RetsParser.parseMetadataType`: the `/<METADATA-([^>\s]+)/`
match on the second line of the input. -/
def parseMetadataType (x : List Char) : Option (List Char) :=
  match splitOnChar '\n' x with
  | _ :: line1 :: _ =>
    scanCapNoClose "<METADATA-".data (fun c => c == '>' || isJsSpace c) line1
  | _ => none

/-- Embedding of `RetsParser.parseMetadataResponse`: reply attributes and an
attributed `<METADATA-type …>` tag are required, then a `<COLUMNS>` block
(else its own error) and the `<DATA>` rows. -/
def parseMetadataResponse (x : List Char) (mtype : List Char) :
    Except String RetsResponse :=
  match findReplyCode x, findReplyText x,
      scanCap ("<METADATA-".data ++ mtype) (· == '>') ['>'] x with
  | some rc, some rt, some (mattrs, _) =>
    match scanCap "<COLUMNS>".data (· == '<') "</COLUMNS>".data x with
    | none => Except.error "No COLUMNS found in metadata response"
    | some (columns, _) =>
      let cols := jsTrim columns
      let dataRows :=
        (allScanCap "<DATA>".data (· == '<') "</DATA>".data x.length x).map
          (fun d => parseTabDelimitedData cols (jsTrim d))
      Except.ok ⟨String.mk rc, String.mk rt, none,
        some ⟨String.mk mtype, parseAttributes mattrs, dataRows⟩, none, none⟩
  | _, _, _ => Except.error "Invalid metadata response format"

/-- The `/<COUNT[^>]*Records="(\d+)"/` match: inside the non-`>` span after
the first `<COUNT`, the digits of `Records="…"`. -/
def findCountRecords (l : List Char) : Option Nat :=
  match afterSub "<COUNT".data l with
  | none => none
  | some r =>
    let run := r.takeWhile (· != '>')
    match afterSub "Records=\"".data run with
    | none => none
    | some r2 =>
      let ds := r2.takeWhile Char.isDigit
      if ds.isEmpty then none
      else if (r2.drop ds.length).head? = some '"' then some (natOfDigits ds)
      else none

/-- Embedding of `RetsParser.parse` (retsParser.ts lines 117–168): trim, then
dispatch on login shape (`<RETS-RESPONSE>` present), metadata shape
(`<METADATA-…` on the second line), search shape (`<COLUMNS>` and at least
one `<DATA>`), and finally the generic shape requiring both `ReplyCode` and
`ReplyText`. -/
def parse (input : String) : Except String RetsResponse :=
  let x := jsTrim input.data
  if jsIncludes (String.mk x) "<RETS-RESPONSE>" then parseLoginResponse x
  else
    match parseMetadataType x with
    | some t => parseMetadataResponse x t
    | none =>
      match lazyBetween "<COLUMNS>".data "</COLUMNS>".data x,
          allLazyBetween "<DATA>".data "</DATA>".data x.length x with
      | some (colContent, _), d :: ds =>
        let cols :=
          (splitOnChar '\t' (jsTrim colContent)).filter (fun c => !c.isEmpty)
        let records := (d :: ds).map (fun m =>
          let values := splitOnChar '\t' (jsTrim m)
          cols.enum.foldl
            (fun acc p =>
              jsObjectSet acc (String.mk p.2) (String.mk (values.getD p.1 [])))
            [])
        Except.ok ⟨String.mk ((findReplyCode x).getD []),
          String.mk ((findReplyText x).getD []), none, none,
          some ((findCountRecords x).getD records.length), some records⟩
      | _, _ =>
        match findReplyCode x, findReplyText x with
        | some rc, some rt =>
          Except.ok ⟨String.mk rc, String.mk rt, none, none, none, none⟩
        | _, _ => Except.error "Invalid RETS response format"

/-- One attempt of `/class \[([^\]]+)\] in resource \[([^\]]+)\]/` at the
head of the input, returning (class, resource) captures. -/
def tryClassResource (l : List Char) : Option (List Char × List Char) :=
  if "class [".data.isPrefixOf l then
    let r1 := l.drop 7
    let cap1 := r1.takeWhile (fun c => c != ']')
    if cap1.isEmpty then none
    else
      let r2 := r1.drop cap1.length
      if "] in resource [".data.isPrefixOf r2 then
        let r3 := r2.drop 15
        let cap2 := r3.takeWhile (fun c => c != ']')
        if cap2.isEmpty then none
        else if (r3.drop cap2.length).head? = some ']' then some (cap1, cap2)
        else none
      else none
  else none

/-- Leftmost match of the class-and-resource pattern. -/
def scanClassResource : List Char → Option (List Char × List Char)
  | [] => none
  | c :: rest =>
    match tryClassResource (c :: rest) with
    | some r => some r
    | none => scanClassResource rest

/-- Embedding of `RetsParser.isUnauthorizedQuery` (retsParser.ts lines
170–179): requires ReplyCode `"20207"`, a ReplyText containing
`"Unauthorized Query"`, and a successful `class […] in resource […]` match,
returning the extracted (className, resource). -/
def isUnauthorizedQuery (response : RetsResponse) :
    Option (String × String) :=
  if response.ReplyCode = "20207" ∧
      jsIncludes response.ReplyText "Unauthorized Query" then
    match scanClassResource response.ReplyText.data with
    | some (cls, res) => some (String.mk cls, String.mk res)
    | none => none
  else none

end RetsParser

/-! ## Sync engine (`src/service.ts`)

The engine's effects on the database are recorded as a trace of `DbOp`
operations; the parsed replies delivered by the RETS server are supplied by
an oracle (`SyncEnv.batches`), and times are rational milliseconds. -/

/-- Embedding of `shouldRunFullSync` (service.ts lines 44–51): no recorded
full sync always qualifies; otherwise at least three hours must have passed
(millisecond difference divided by `1000*60*60`). -/
def shouldRunFullSync (lastFullSync : Option ℚ) (now : ℚ) : Bool :=
  match lastFullSync with
  | none => true
  | some t => decide ((now - t) / (1000 * 60 * 60) ≥ 3)

/-- JS `Set.prototype.add` on an insertion-ordered string set. -/
def jsSetAdd (l : List String) (k : String) : List String :=
  if l.contains k then l else l ++ [k]

/-! ### Lockout persistence (`loadLockoutSet` / `saveLockoutSet`)

`saveLockoutSet` writes `JSON.stringify(Array.from(set))`;
`loadLockoutSet` reads the file and builds `new Set(JSON.parse(data))`.
The file content is modelled at the JSON-value level (`JSON.parse` is the
inverse of `JSON.stringify` on JSON values). -/

/-- JSON values (`JSON.parse` results). -/
inductive Json where
  | null : Json
  | bool : Bool → Json
  | num : ℚ → Json
  | str : String → Json
  | arr : List Json → Json
  | obj : List (String × Json) → Json

/-- JS `SameValueZero`, the equality used by `Set`: primitives compare by
value; arrays and objects compare by reference, and the references produced
by `JSON.parse` are fresh, so they are never equal. -/
def jsonSameValueZero : Json → Json → Bool
  | .null, .null => true
  | .bool a, .bool b => a == b
  | .num a, .num b => a == b
  | .str a, .str b => a == b
  | _, _ => false

/-- `new Set(iterable)`: insertion-ordered, first occurrence kept. -/
def jsSetFromIterable (xs : List Json) : List Json :=
  xs.foldl
    (fun acc x =>
      if acc.any (fun y => jsonSameValueZero y x) then acc else acc ++ [x])
    []

/-- Embedding of `saveLockoutSet` (service.ts lines 63–69): the file holds
the JSON array of the set's elements in insertion order. -/
def saveLockoutSet (lockout : List String) : Json :=
  Json.arr (lockout.map Json.str)

/-- Embedding of `loadLockoutSet` (service.ts lines 53–61): parse the file
and build a `Set` from it; a string is iterated character-wise, any
non-iterable value throws and the `catch` yields the empty set. -/
def loadLockoutSet : Json → List Json
  | .arr xs => jsSetFromIterable xs
  | .str s => jsSetFromIterable (s.data.map (fun c => Json.str (String.mk [c])))
  | _ => []

/-! ### The per-pair sync step -/

/-- One catalog entry of `update_fields.json` as consumed by `syncData`. -/
structure SyncEntry where
  resource : String
  updateField : String
  classes : List String
  syncType : String

/-- `classes && classes.length > 0 ? classes : [null]`. -/
def classListOf (e : SyncEntry) : List (Option String) :=
  if e.classes.isEmpty then [none] else e.classes.map some

/-- JS template-literal rendering of a possibly-`null` class name. -/
def jsStr (o : Option String) : String :=
  o.getD "null"

/-- Table name computation of `syncData` (service.ts lines 207–217). -/
def tableNameOf (resource : String) (classList : List (Option String))
    (className : Option String) : String :=
  if resource = "Deleted" then "Deleted_" ++ jsStr className
  else if classList.length = 1 ∧ (className = some resource ∨ className = none)
    then resource
  else resource ++ "_" ++ jsStr className

/-- Lockout key `` `${resource}::${className}` `` (service.ts line 218). -/
def lockoutKeyOf (resource : String) (className : Option String) : String :=
  resource ++ "::" ++ jsStr className

/-- Database operations issued by one sync cycle, in order. -/
inductive DbOp where
  | tableExistsCheck : String → DbOp
  | fetchTableMetadata : String → Option String → DbOp
  | createTable : String → DbOp
  | selectMaxUpdate : String → String → DbOp
  | truncate : String → DbOp
  | upsert : String → RetsRecord → DbOp
  | saveLockout : List String → DbOp
  | dropTable : String → DbOp
deriving DecidableEq

/-- State threaded through the batch callback of `syncData`: the (shared)
lockout set, the set of existing tables, the `unauthorized` flag and the
operations issued so far. -/
structure CbState where
  lockout : List String
  tables : List String
  unauthorized : Bool
  ops : List DbOp
deriving DecidableEq

/-- Embedding of the `upsertCallback` closure inside `syncData` (service.ts
lines 306–348): on an empty batch whose reply carries the
unauthorized-query signature, add the key to the lockout set, persist it,
drop the table and set the flag; once flagged, do nothing; otherwise
sanitize-and-upsert each record (recorded as one `upsert` per record —
per-row sanitization and SQL errors change values and logging only, not
which table is written). -/
def syncBatchCallback (table lockoutKey : String) (st : CbState)
    (parsed : RetsResponse) : CbState :=
  if parsed.recordsD.length = 0 ∧ (RetsParser.isUnauthorizedQuery parsed).isSome
  then
    let lockout' := jsSetAdd st.lockout lockoutKey
    ⟨lockout', st.tables.filter (fun t => t != table), true,
      st.ops ++ [.saveLockout lockout', .dropTable table]⟩
  else if st.unauthorized then st
  else ⟨st.lockout, st.tables, st.unauthorized,
    st.ops ++ parsed.recordsD.map (fun r => .upsert table r)⟩

/-- Limit of every Search request (`batchSize`, service.ts line 115). -/
def retsBatchSize : Nat := 2500

/-- Embedding of the pagination loop of `fetchRetsUpdates` (service.ts lines
115–162): starting at `Offset = 1`, each batch is handed to the callback;
a batch with fewer than `retsBatchSize` records ends the loop, otherwise the
offset advances by `retsBatchSize`.  `respond` maps an offset to the parsed
reply; the visited offsets are returned alongside the final state. -/
def fetchLoop {σ : Type} (respond : Nat → RetsResponse)
    (callback : σ → RetsResponse → σ) :
    Nat → Nat → σ → σ × List Nat
  | 0, _, s => (s, [])
  | fuel + 1, offset, s =>
    let parsed := respond offset
    let s' := callback s parsed
    if parsed.recordsD.length < retsBatchSize then (s', [offset])
    else
      let r := fetchLoop respond callback fuel (offset + retsBatchSize) s'
      (r.1, offset :: r.2)

/-- Oracle environment of one sync cycle: wall-clock time, the
`SELECT MAX(update_field)` answers, the parsed Search replies per
(resource, class, offset), and loop fuel. -/
structure SyncEnv where
  now : ℚ
  latestUpdate : String → String → Option String
  batches : String → Option String → Nat → RetsResponse
  fuel : Nat

/-- Database state threaded through a cycle: the lockout set and the
existing tables. -/
structure SyncState where
  lockout : List String
  tables : List String
deriving DecidableEq

/-- Embedding of the body of the per-(resource, class) loop of `syncData`
(service.ts lines 206–352): compute table and lockout key; skip if locked
out; check existence, fetch metadata and create the table if absent; then
either the partial path (read the watermark, fetch) or the full path
(skip unless `shouldRunFullSync`, else truncate and fetch). -/
def processPair (env : SyncEnv) (lastFullSync : Option ℚ) (e : SyncEntry)
    (className : Option String) (st : SyncState) : SyncState × List DbOp :=
  let table := tableNameOf e.resource (classListOf e) className
  let lockoutKey := lockoutKeyOf e.resource className
  if st.lockout.contains lockoutKey then (st, [])
  else
    let existsTable := st.tables.contains table
    let tables1 := if existsTable then st.tables else st.tables ++ [table]
    let setupOps : List DbOp :=
      if existsTable then
        [.tableExistsCheck table, .fetchTableMetadata e.resource className]
      else
        [.tableExistsCheck table, .fetchTableMetadata e.resource className,
          .createTable table]
    if e.updateField ≠ "N/A" then
      let r := fetchLoop (env.batches e.resource className)
        (syncBatchCallback table lockoutKey) env.fuel 1
        ⟨st.lockout, tables1, false, []⟩
      (⟨r.1.lockout, r.1.tables⟩,
        setupOps ++ [.selectMaxUpdate table e.updateField] ++ r.1.ops)
    else if ¬ shouldRunFullSync lastFullSync env.now then
      (⟨st.lockout, tables1⟩, setupOps)
    else
      let r := fetchLoop (env.batches e.resource className)
        (syncBatchCallback table lockoutKey) env.fuel 1
        ⟨st.lockout, tables1, false, []⟩
      (⟨r.1.lockout, r.1.tables⟩, setupOps ++ [.truncate table] ++ r.1.ops)

/-- The (resource, class) pairs a cycle visits, in visiting order (outer
loop over catalog entries, inner loop over each entry's class list). -/
def pairsOf : List SyncEntry → List (SyncEntry × Option String)
  | [] => []
  | e :: es => (classListOf e).map (fun c => (e, c)) ++ pairsOf es

/-- Sequential processing of a list of pairs, threading state and
concatenating traces. -/
def syncPairs (env : SyncEnv) (lastFullSync : Option ℚ) :
    List (SyncEntry × Option String) → SyncState → SyncState × List DbOp
  | [], st => (st, [])
  | p :: ps, st =>
    let r := processPair env lastFullSync p.1 p.2 st
    let rest := syncPairs env lastFullSync ps r.1
    (rest.1, r.2 ++ rest.2)

/-- Embedding of one `syncData` cycle over the catalog. -/
def syncData (env : SyncEnv) (lastFullSync : Option ℚ)
    (entries : List SyncEntry) (st : SyncState) : SyncState × List DbOp :=
  syncPairs env lastFullSync (pairsOf entries) st


/-- Concrete parsed replies used by witnesses and counterexamples. -/
def exampleEmptyReply : RetsResponse :=
  ⟨"", "", none, none, none, some []⟩

/-- Reply 20207 whose text contains "Unauthorized Query" but no
`class […] in resource […]` pattern. -/
def unauthorizedReplyNoPattern : RetsResponse :=
  ⟨"20207", "Unauthorized Query", none, none, none, some []⟩

/-- Reply 20207 with the full unauthorized-query signature. -/
def unauthorizedReplyCI3 : RetsResponse :=
  ⟨"20207", "Unauthorized Query on class [CI_3] in resource [Property]",
    none, none, none, some []⟩

/-! ## Object-store upload retries (`src/scripts/syncPhotosToObjectStorage.ts`)

`uploadFile` is modelled over two oracles: whether attempt `n` succeeds
(`succeeds`), and the value of `Math.random()` before the `n`-th sleep
(`rand`, values in `[0, 1)`). -/

/-- The backoff of `uploadFile` (lines 113–120):
`min(baseDelay · 2^(attempt−1) · (1 + jitter), maxDelay)` in milliseconds,
with `jitter = rand · 0.1`. -/
def backoffDelay (rand : ℚ) (attempt : Nat) : ℚ :=
  min (1000 * 2 ^ (attempt - 1) * (1 + rand * (1 / 10))) 30000

/-- Outcome of an `uploadFile` call: whether it returned normally, the number
of attempts made, and the sleeps performed between attempts (in order). -/
structure UploadTrace where
  ok : Bool
  attempts : Nat
  sleeps : List ℚ
deriving DecidableEq

/-- The `for (attempt = 1; attempt <= retries; attempt++)` loop of
`uploadFile` (lines 60–129): success returns; failure at `attempt = retries`
rethrows; otherwise sleep `backoffDelay` and try again.  `fuel` counts the
remaining loop iterations (`retries − attempt + 1` at entry). -/
def uploadGo (succeeds : Nat → Bool) (rand : Nat → ℚ) (retries : Nat) :
    Nat → Nat → UploadTrace
  | 0, attempt => ⟨true, attempt - 1, []⟩
  | fuel + 1, attempt =>
    if succeeds attempt then ⟨true, attempt, []⟩
    else if attempt = retries then ⟨false, attempt, []⟩
    else
      let rest := uploadGo succeeds rand retries fuel (attempt + 1)
      ⟨rest.ok, rest.attempts, backoffDelay (rand attempt) attempt :: rest.sleeps⟩

/-- Embedding of `uploadFile` (the source's default is `retries = 5`). -/
def uploadFile (succeeds : Nat → Bool) (rand : Nat → ℚ) (retries : Nat) :
    UploadTrace :=
  uploadGo succeeds rand retries retries 1

/-! ## Lifecycle reconciler (`checkPropertyStatus`, clean.ts)

The local phase of `checkPropertyStatus` (part_002 lines 578–675) for one
property table: given the hotsheet-derived id sets (`soldListingIds`,
`expiredWithdrawnListingIds`), classify the rows whose `L_ListingID` is in
the union, then issue the grouped UPDATE and DELETE. -/

/-- One row of a property table as read by the reconciler. -/
structure PropRow where
  L_ListingID : String
  L_Address : String
  L_StatusCatID : String
deriving DecidableEq

/-- The sold-side row condition (lines 586–588 / 597–600):
in the sold set with current status ≠ "2". -/
def rowSoldCond (soldIds : List String) (row : PropRow) : Bool :=
  soldIds.contains row.L_ListingID && row.L_StatusCatID != "2"

/-- The expired-side row condition (lines 589–590 / 613–615):
in the withdrawn-or-expired set with current status in {"1","2"}. -/
def rowExpiredCond (expiredIds : List String) (row : PropRow) : Bool :=
  expiredIds.contains row.L_ListingID &&
    (row.L_StatusCatID == "1" || row.L_StatusCatID == "2")

/-- `matchingRows` (line 585): rows satisfying either condition. -/
def matchingRows (soldIds expiredIds : List String) (rows : List PropRow) :
    List PropRow :=
  rows.filter (fun row =>
    rowSoldCond soldIds row || rowExpiredCond expiredIds row)

/-- First-occurrence deduplication (the `Map` keyed by listing id). -/
def jsStrSetFrom (xs : List String) : List String :=
  xs.foldl jsSetAdd []

/-- Ids grouped for the UPDATE (soldMatches, lines 597–611). -/
def soldMatchIds (soldIds expiredIds : List String) (rows : List PropRow) :
    List String :=
  jsStrSetFrom ((matchingRows soldIds expiredIds rows).filterMap
    (fun row =>
      if rowSoldCond soldIds row then some row.L_ListingID else none))

/-- Ids grouped for the DELETE (expiredMatches, lines 613–627). -/
def expiredMatchIds (soldIds expiredIds : List String) (rows : List PropRow) :
    List String :=
  jsStrSetFrom ((matchingRows soldIds expiredIds rows).filterMap
    (fun row =>
      if rowExpiredCond expiredIds row then some row.L_ListingID else none))

/-- The table after `UPDATE … SET L_StatusCatID = '2' WHERE L_ListingID IN …`
followed by `DELETE FROM … WHERE L_ListingID IN …` (lines 641–675). -/
def checkPropertyStatusLocal (soldIds expiredIds : List String)
    (rows : List PropRow) : List PropRow :=
  let soldM := soldMatchIds soldIds expiredIds rows
  let expM := expiredMatchIds soldIds expiredIds rows
  let afterSold := rows.map (fun r =>
    if soldM.contains r.L_ListingID then ⟨r.L_ListingID, r.L_Address, "2"⟩
    else r)
  afterSold.filter (fun r => !(expM.contains r.L_ListingID))

/-- Per-row reconciliation exactly as the claim words it: a row in the
withdrawn-or-expired set with current status in {"1","2"} is deleted; else a
row in the sold set with current status ≠ "2" is updated to "2"; every other
row is untouched. -/
def specReconcile (soldIds expiredIds : List String) :
    List PropRow → List PropRow
  | [] => []
  | r :: rs =>
    if expiredIds.contains r.L_ListingID ∧
        (r.L_StatusCatID = "1" ∨ r.L_StatusCatID = "2") then
      specReconcile soldIds expiredIds rs
    else if soldIds.contains r.L_ListingID ∧ r.L_StatusCatID ≠ "2" then
      ⟨r.L_ListingID, r.L_Address, "2"⟩ :: specReconcile soldIds expiredIds rs
    else r :: specReconcile soldIds expiredIds rs

/-! ## Photo fetchers

Binary buffers are modelled as `List Char`, one character per byte. -/

/-- `Buffer.prototype.indexOf(sub)`: index of the first occurrence. -/
def idxOfSub (sub : List Char) : List Char → Option Nat
  | [] => if sub.isPrefixOf ([] : List Char) then some 0 else none
  | c :: rest =>
    if sub.isPrefixOf (c :: rest) then some 0
    else (idxOfSub sub rest).map (· + 1)

/-- `Buffer.prototype.indexOf(sub, start)`: absolute index of the first
occurrence at or after `start`. -/
def idxOfFrom (buffer sub : List Char) (start : Nat) : Option Nat :=
  (idxOfSub sub (buffer.drop start)).map (· + start)

/-- `buffer.subarray(a, b)` / `slice(a, b)`. -/
def bufSlice (buffer : List Char) (a b : Nat) : List Char :=
  (buffer.drop a).take (b - a)

/-- Embedding of the loop of `parseMultipartResponse` (part_001 photo helper,
lines 172–214): find consecutive boundary occurrences, skip the part
headers, and keep the payload from the JPEG start-of-image magic on. -/
def parseMultipartLoop (buffer boundaryBytes : List Char) :
    Nat → Nat → List (List Char)
  | 0, _ => []
  | fuel + 1, start =>
    match idxOfFrom buffer boundaryBytes start with
    | none => []
    | some partStart =>
      match idxOfFrom buffer boundaryBytes (partStart + boundaryBytes.length)
      with
      | none => []
      | some partEnd =>
        let partContent :=
          bufSlice buffer (partStart + boundaryBytes.length) partEnd
        let parts :=
          match idxOfSub "\r\n\r\n".data partContent with
          | none => []
          | some headerEnd =>
            let imageData := partContent.drop (headerEnd + 4)
            match idxOfSub ['\xff', '\xd8'] imageData with
            | none => []
            | some jpegStart => [imageData.drop jpegStart]
        parts ++ parseMultipartLoop buffer boundaryBytes fuel partEnd

/-- Embedding of `parseMultipartResponse`. -/
def parseMultipartResponse (buffer : List Char) (boundary : String) :
    List (List Char) :=
  parseMultipartLoop buffer ("\r\n--" ++ boundary).data (buffer.length + 1) 0

/-- Result of `getPhoto`; the `Last-Modified` date is carried as its source
header string. -/
structure PhotoResult where
  photos : List (List Char)
  lastModified : Option String
deriving DecidableEq

/-- Embedding of `getPhoto` (part_001 photo helper, lines 221–275), applied
to the response body and the relevant response headers: a body shorter than
100 bytes yields no photos; otherwise a missing `boundary=` in the
content type throws; otherwise the multipart payloads are returned. -/
def getPhoto (responseBuffer : List Char) (contentType : Option String)
    (lastModifiedHeader : Option String) : Except String PhotoResult :=
  if responseBuffer.length < 100 then Except.ok ⟨[], none⟩
  else
    let boundary :=
      match contentType with
      | none => none
      | some ct => (splitOnSub "boundary=".data ct.data).get? 1
    match boundary with
    | none => Except.error "No boundary found in content-type header"
    | some b =>
      Except.ok ⟨parseMultipartResponse responseBuffer (String.mk b),
        lastModifiedHeader⟩

/-- Part metadata extracted by `getPropertyPhotos`; the spread `X-` headers
are carried in `xHeaders`. -/
structure PhotoMeta where
  lastModified : Option String
  contentSubDescription : Option String
  contentLabel : Option String
  accessibility : Option String
  photoTimestamp : Option String
  preferred : Option String
  description : Option String
  partType : Option String
  partSize : Option String
  width : Option String
  height : Option String
  xHeaders : List (String × String)
deriving DecidableEq

/-- The all-absent metadata (`metadata: {}` of the single-image branch). -/
def emptyPhotoMeta : PhotoMeta :=
  ⟨none, none, none, none, none, none, none, none, none, none, none, []⟩

/-- One photo emitted by `getPropertyPhotos`. -/
structure PhotoResponse where
  objectId : String
  imageData : List Char
  metadata : PhotoMeta
deriving DecidableEq

/-- JS header-map lookup (`headerMap[k]`, keys lowercased at insertion). -/
def headerLookup (m : List (String × String)) (k : String) : Option String :=
  (m.find? (fun p => p.1 == k)).map Prod.snd

/-- Metadata assembled from a part's header map (propertyPhotos.ts lines
257–275). -/
def mkPhotoMeta (headerMap : List (String × String)) : PhotoMeta :=
  ⟨headerLookup headerMap "last-modified",
    headerLookup headerMap "content-sub-description",
    headerLookup headerMap "content-label",
    headerLookup headerMap "accessibility",
    headerLookup headerMap "photo-timestamp",
    headerLookup headerMap "preferred",
    headerLookup headerMap "description",
    headerLookup headerMap "type",
    headerLookup headerMap "size",
    headerLookup headerMap "width",
    headerLookup headerMap "height",
    headerMap.filter (fun p => "x-".data.isPrefixOf p.1.data)⟩

/-- Embedding of the multipart `while` loop of `getPropertyPhotos`
(propertyPhotos.ts lines 178–285): skip a leading CRLF, locate the header
block, build the lowercased header map, find the part end via the next
(end-)boundary, skip non-`image/` parts (leaving the position at the end of
the headers, as `continue` does), emit nonempty payloads, and stop at the
end boundary. -/
def getPropertyPhotosLoop (responseBuffer boundaryBuffer endBoundaryBuffer :
    List Char) (listingId : String) : Nat → Nat → List PhotoResponse
  | 0, _ => []
  | fuel + 1, currentPos0 =>
    if currentPos0 < responseBuffer.length then
      let currentPos1 :=
        if responseBuffer.get? currentPos0 = some '\r' ∧
            responseBuffer.get? (currentPos0 + 1) = some '\n'
        then currentPos0 + 2 else currentPos0
      match idxOfFrom responseBuffer "\r\n\r\n".data currentPos1 with
      | none => []
      | some headersEndPos =>
        let headersStr := bufSlice responseBuffer currentPos1 headersEndPos
        let headerMap := (splitOnSub "\r\n".data headersStr).foldl
          (fun acc line =>
            let parts := splitOnSub ": ".data line
            match parts.get? 0, parts.get? 1 with
            | some key, some value =>
              if !key.isEmpty ∧ !value.isEmpty then
                jsObjectSet acc (jsToLower (String.mk key)) (String.mk value)
              else acc
            | _, _ => acc)
          []
        let currentPos2 := headersEndPos + 4
        let nextBoundaryPos := idxOfFrom responseBuffer boundaryBuffer
          currentPos2
        let endBoundaryPos := idxOfFrom responseBuffer endBoundaryBuffer
          currentPos2
        let partEndPos? :=
          match endBoundaryPos, nextBoundaryPos with
          | some e, some n => if e < n then some e else some n
          | some e, none => some e
          | none, some n => some n
          | none, none => none
        match partEndPos? with
        | none => []
        | some partEndPos =>
          let binaryData := bufSlice responseBuffer currentPos2 partEndPos
          let objectId := (headerLookup headerMap "object-id").getD listingId
          let isImage :=
            match headerLookup headerMap "content-type" with
            | some ct => "image/".data.isPrefixOf ct.data
            | none => false
          if !isImage then
            getPropertyPhotosLoop responseBuffer boundaryBuffer
              endBoundaryBuffer listingId fuel currentPos2
          else
            let photos :=
              if binaryData.length > 0 then
                [⟨objectId, binaryData, mkPhotoMeta headerMap⟩]
              else []
            if (match endBoundaryPos with
                | some e => decide (e ≤ partEndPos)
                | none => false) then photos
            else
              photos ++ getPropertyPhotosLoop responseBuffer boundaryBuffer
                endBoundaryBuffer listingId fuel partEndPos
    else []

/-- Embedding of `getPropertyPhotos` (propertyPhotos.ts lines 125–293),
applied to the response body and the response `content-type` header: with no
`boundary=…` in the content type the whole body is one photo with the
listing id and empty metadata; otherwise the multipart loop runs from just
after the first boundary. -/
def getPropertyPhotos (responseBuffer : List Char)
    (contentTypeHeader : Option String) (listingId : String) :
    List PhotoResponse :=
  let boundary :=
    match contentTypeHeader with
    | none => none
    | some ct => scanCapNoClose "boundary=".data (· == ';') ct.data
  match boundary with
  | none => [⟨listingId, responseBuffer, emptyPhotoMeta⟩]
  | some b =>
    let boundaryBuffer := "\r\n--".data ++ b
    let endBoundaryBuffer := boundaryBuffer ++ "--".data
    let currentPos :=
      match idxOfSub (boundaryBuffer.drop 2) responseBuffer with
      | some firstBoundaryPos =>
        firstBoundaryPos + boundaryBuffer.length - 2
      | none => 0
    getPropertyPhotosLoop responseBuffer boundaryBuffer endBoundaryBuffer
      listingId (responseBuffer.length + 1) currentPos

/-- A generic-shape input carrying only a ReplyCode attribute. -/
def replyCodeOnlyInput : String :=
  "<RETS ReplyCode=\"0\"/>"

/-- A sub-100-byte GetObject body. -/
def shortBody : List Char :=
  "hello".data

/-! ## Theorems -/

/-- C5: `getRetsToMySQLType` maps every `FieldDef` exactly as the spec's type
table states: `LookupMulti` → TEXT and `Lookup` → VARCHAR(50) override the
data type; int/small/tiny → INT; long → BIGINT; datetime/date/time → their
zero-value-default NOT NULL forms; character with `1 ≤ maxLen ≤ 255` →
VARCHAR(maxLen), otherwise TEXT; decimal with `maxLen > precision ≥ 0` →
DECIMAL(maxLen, precision), otherwise DECIMAL(10,2); boolean → CHAR(1);
every other case → TEXT (stated as: the embedded source function agrees with
the table transcribed from the spec at every field definition). -/
theorem getRetsToMySQLType_matches_spec_table (field : FieldDef) :
    getRetsToMySQLType field = specTypeTable field := by
  rcases field with ⟨dt, interp, ml, pr⟩
  unfold getRetsToMySQLType specTypeTable
  by_cases hA1 : interp = some "LookupMulti"
  · rw [if_pos hA1, if_pos hA1]
  rw [if_neg hA1, if_neg hA1]
  by_cases hA2 : interp = some "Lookup"
  · rw [if_pos hA2, if_pos hA2]
  rw [if_neg hA2, if_neg hA2]
  by_cases hB1 : Option.map jsToLower dt = some "int"
      ∨ Option.map jsToLower dt = some "small"
      ∨ Option.map jsToLower dt = some "tiny"
  · rw [if_pos hB1, if_pos hB1]
  rw [if_neg hB1, if_neg hB1]
  by_cases hB2 : Option.map jsToLower dt = some "long"
  · rw [if_pos hB2, if_pos hB2]
  rw [if_neg hB2, if_neg hB2]
  by_cases hB3 : Option.map jsToLower dt = some "datetime"
  · rw [if_pos hB3, if_pos hB3]
  rw [if_neg hB3, if_neg hB3]
  by_cases hB4 : Option.map jsToLower dt = some "character"
  · rw [if_pos hB4, if_pos hB4]
    cases ml with
    | none => rfl
    | some n =>
      dsimp only
      split_ifs <;> first | rfl | (exfalso; omega)
  rw [if_neg hB4, if_neg hB4]
  by_cases hB5 : Option.map jsToLower dt = some "decimal"
  · rw [if_pos hB5, if_pos hB5]
    cases ml with
    | none => rfl
    | some m =>
      cases pr with
      | none => rfl
      | some p =>
        dsimp only
        split_ifs <;> first | rfl | (exfalso; omega)
  rw [if_neg hB5, if_neg hB5]

/-! ### Helper lemmas for the sync-engine theorems -/

theorem syncBatchCallback_lockout_mono (table key k : String) (st : CbState)
    (p : RetsResponse) (h : k ∈ st.lockout) :
    k ∈ (syncBatchCallback table key st p).lockout := by
  unfold syncBatchCallback
  split_ifs <;> simp_all [jsSetAdd]
  split_ifs <;> simp [h]

theorem fetchLoop_lockout_mono (respond : Nat → RetsResponse)
    (table key k : String) :
    ∀ (fuel offset : Nat) (st : CbState), k ∈ st.lockout →
      k ∈ (fetchLoop respond (syncBatchCallback table key)
        fuel offset st).1.lockout := by
  intro fuel
  induction fuel with
  | zero => intro offset st h; simpa [fetchLoop] using h
  | succ n ih =>
    intro offset st h
    unfold fetchLoop
    dsimp only
    split_ifs
    · exact syncBatchCallback_lockout_mono table key k st _ h
    · exact ih _ _ (syncBatchCallback_lockout_mono table key k st _ h)

theorem processPair_lockout_mono (env : SyncEnv) (lfs : Option ℚ)
    (e : SyncEntry) (c : Option String) (k : String) (st : SyncState)
    (h : k ∈ st.lockout) :
    k ∈ (processPair env lfs e c st).1.lockout := by
  unfold processPair
  dsimp only
  split_ifs <;>
    first
      | exact h
      | exact fetchLoop_lockout_mono _ _ _ _ _ _ _ h

theorem processPair_skip (env : SyncEnv) (lfs : Option ℚ) (e : SyncEntry)
    (c : Option String) (st : SyncState)
    (h : st.lockout.contains (lockoutKeyOf e.resource c) = true) :
    processPair env lfs e c st = (st, []) := by
  unfold processPair
  rw [if_pos h]

theorem syncBatchCallback_ops_truncate (table key : String) (st : CbState)
    (p : RetsResponse) (t : String) :
    (DbOp.truncate t ∈ (syncBatchCallback table key st p).ops) ↔
      DbOp.truncate t ∈ st.ops := by
  unfold syncBatchCallback
  split_ifs <;> simp_all

theorem fetchLoop_ops_truncate (respond : Nat → RetsResponse)
    (table key : String) (t : String) :
    ∀ (fuel offset : Nat) (st : CbState),
      (DbOp.truncate t ∈ (fetchLoop respond (syncBatchCallback table key)
        fuel offset st).1.ops) ↔ DbOp.truncate t ∈ st.ops := by
  intro fuel
  induction fuel with
  | zero => intro offset st; simp [fetchLoop]
  | succ n ih =>
    intro offset st
    unfold fetchLoop
    dsimp only
    split_ifs
    · exact syncBatchCallback_ops_truncate table key st _ t
    · exact (ih _ _).trans (syncBatchCallback_ops_truncate table key st _ t)

/-- C2: every (resource, class) pair whose lockout key is in the lockout set
at the start of a cycle is skipped before any table access: `processPair`
returns the state unchanged with an empty operation trace, and the whole
cycle's final state and trace are identical to those of a cycle from which
all pairs with that key are removed — so no insert, update or read is
performed against the pair's table on its behalf. -/
theorem lockout_pairs_skipped :
    (∀ (env : SyncEnv) (lfs : Option ℚ) (e : SyncEntry) (c : Option String)
        (st : SyncState),
      st.lockout.contains (lockoutKeyOf e.resource c) = true →
        processPair env lfs e c st = (st, [])) ∧
    (∀ (env : SyncEnv) (lfs : Option ℚ) (k : String)
        (ps : List (SyncEntry × Option String)) (st : SyncState),
      st.lockout.contains k = true →
        syncPairs env lfs
          (ps.filter (fun p => lockoutKeyOf p.1.resource p.2 != k)) st =
        syncPairs env lfs ps st) := by
  constructor
  · exact fun env lfs e c st h => processPair_skip env lfs e c st h
  · intro env lfs k ps
    induction ps with
    | nil => intro st h; rfl
    | cons p ps ih =>
      intro st h
      by_cases hk : lockoutKeyOf p.1.resource p.2 = k
      · have hskip : processPair env lfs p.1 p.2 st = (st, []) := by
          apply processPair_skip
          rw [hk]; exact h
        have hcond : (lockoutKeyOf p.1.resource p.2 != k) = false := by
          simp [hk]
        have hfl : (p :: ps).filter (fun q => lockoutKeyOf q.1.resource q.2 != k) =
            ps.filter (fun q => lockoutKeyOf q.1.resource q.2 != k) := by
          rw [List.filter_cons, hcond]
          simp
        rw [hfl, ih st h]
        conv_rhs => rw [syncPairs]
        rw [hskip]
        simp
      · have hcond : (lockoutKeyOf p.1.resource p.2 != k) = true := by
          simp [hk]
        have hfl : (p :: ps).filter (fun q => lockoutKeyOf q.1.resource q.2 != k) =
            p :: ps.filter (fun q => lockoutKeyOf q.1.resource q.2 != k) := by
          rw [List.filter_cons, hcond]
          simp
        rw [hfl]
        conv_lhs => rw [syncPairs]
        conv_rhs => rw [syncPairs]
        have hmem : k ∈ st.lockout := by simpa using h
        have hmono := processPair_lockout_mono env lfs p.1 p.2 k st hmem
        have h' : (processPair env lfs p.1 p.2 st).1.lockout.contains k = true := by
          simpa using hmono
        rw [ih _ h']

/-- Witness for C2 at a concrete locked-out pair and one-pair catalog. -/
theorem lockout_pairs_skipped_witness :
    processPair ⟨0, fun _ _ => none, fun _ _ _ => exampleEmptyReply, 1⟩ none
      ⟨"Property", "L_UpdateDate", ["CI_3"], "partial"⟩ (some "CI_3")
      ⟨["Property::CI_3"], ["Property_CI_3"]⟩ =
      (⟨["Property::CI_3"], ["Property_CI_3"]⟩, []) :=
  lockout_pairs_skipped.1 _ none _ (some "CI_3") _ (by decide)

/-- C3: the pagination loop of `fetchRetsUpdates` uses `Limit = 2500`; a
batch with exactly `retsBatchSize` records causes another request at
`Offset + retsBatchSize`, and a batch with strictly fewer records ends the
iteration with no further request. -/
theorem fetchRetsUpdates_pagination :
    retsBatchSize = 2500 ∧
    (∀ {σ : Type} (respond : Nat → RetsResponse) (cb : σ → RetsResponse → σ)
        (fuel offset : Nat) (s : σ),
      (respond offset).recordsD.length = retsBatchSize →
        (fetchLoop respond cb (fuel + 1) offset s).2 =
          offset :: (fetchLoop respond cb fuel (offset + retsBatchSize)
            (cb s (respond offset))).2) ∧
    (∀ {σ : Type} (respond : Nat → RetsResponse) (cb : σ → RetsResponse → σ)
        (fuel offset : Nat) (s : σ),
      (respond offset).recordsD.length < retsBatchSize →
        fetchLoop respond cb (fuel + 1) offset s =
          (cb s (respond offset), [offset])) := by
  refine ⟨rfl, ?_, ?_⟩
  · intro σ respond cb fuel offset s h
    conv_lhs => rw [fetchLoop]
    rw [if_neg (by omega)]
  · intro σ respond cb fuel offset s h
    conv_lhs => rw [fetchLoop]
    rw [if_pos h]

/-- Witness for C3: a batch of zero records at offset 1 ends the iteration
after the single request. -/
theorem fetchRetsUpdates_pagination_witness :
    fetchLoop (fun _ => exampleEmptyReply) (fun (s : Unit) _ => s) 1 1 () =
      ((), [1]) := by
  have h : exampleEmptyReply.recordsD.length < retsBatchSize := by decide
  exact fetchRetsUpdates_pagination.2.2 (fun _ => exampleEmptyReply)
    (fun s _ => s) 0 1 () h

/-- C1 (counterexample): a Search batch of zero records whose reply has
ReplyCode "20207" and ReplyText containing "Unauthorized Query" — but no
`class […] in resource […]` pattern — does NOT trigger the lockout: the
callback leaves the state untouched (no lockout entry, no persist, no DROP),
contradicting the claim's trigger condition. -/
theorem unauthorized_lockout_counterexample :
    unauthorizedReplyNoPattern.ReplyCode = "20207" ∧
    jsIncludes unauthorizedReplyNoPattern.ReplyText "Unauthorized Query"
      = true ∧
    unauthorizedReplyNoPattern.recordsD.length = 0 ∧
    syncBatchCallback "Property_CI_3" "Property::CI_3"
        ⟨[], ["Property_CI_3"], false, []⟩ unauthorizedReplyNoPattern =
      ⟨[], ["Property_CI_3"], false, []⟩ := by
  refine ⟨rfl, by decide, rfl, ?_⟩
  decide

/-- C1 (amended): whenever a Search batch returns zero records and
`isUnauthorizedQuery` accepts the reply — ReplyCode "20207", ReplyText
containing "Unauthorized Query" AND matching `class […] in resource […]` —
the engine adds the pair's key to the lockout set, persists the set, drops
the pair's table, and stops iterating the pair (the pagination loop ends at
this batch). -/
theorem unauthorized_lockout_amended
    (table lockoutKey : String) (st : CbState) (parsed : RetsResponse)
    (h0 : parsed.recordsD.length = 0)
    (hu : (RetsParser.isUnauthorizedQuery parsed).isSome = true) :
    (syncBatchCallback table lockoutKey st parsed).lockout =
        jsSetAdd st.lockout lockoutKey ∧
    (syncBatchCallback table lockoutKey st parsed).lockout.contains lockoutKey
        = true ∧
    (syncBatchCallback table lockoutKey st parsed).unauthorized = true ∧
    (syncBatchCallback table lockoutKey st parsed).ops =
      st.ops ++ [.saveLockout (jsSetAdd st.lockout lockoutKey),
        .dropTable table] ∧
    (syncBatchCallback table lockoutKey st parsed).tables.contains table
        = false ∧
    (∀ {σ : Type} (respond : Nat → RetsResponse) (cb : σ → RetsResponse → σ)
        (fuel offset : Nat) (s : σ), respond offset = parsed →
      (fetchLoop respond cb (fuel + 1) offset s).2 = [offset]) := by
  have hcb : syncBatchCallback table lockoutKey st parsed =
      ⟨jsSetAdd st.lockout lockoutKey,
        st.tables.filter (fun t => t != table), true,
        st.ops ++ [.saveLockout (jsSetAdd st.lockout lockoutKey),
          .dropTable table]⟩ := by
    unfold syncBatchCallback
    rw [if_pos ⟨h0, hu⟩]
  refine ⟨by rw [hcb], ?_, by rw [hcb], by rw [hcb], ?_, ?_⟩
  · rw [hcb]
    show (jsSetAdd st.lockout lockoutKey).contains lockoutKey = true
    unfold jsSetAdd
    split_ifs with hc <;> simp_all
  · rw [hcb]
    show (st.tables.filter (fun t => t != table)).contains table = false
    simp
  · intro σ respond cb fuel offset s hr
    conv_lhs => rw [fetchLoop]
    rw [if_pos (by rw [hr, h0]; decide)]

/-- Witness for C1's amended theorem at a concrete unauthorized reply. -/
theorem unauthorized_lockout_amended_witness :
    (syncBatchCallback "Property_CI_3" "Property::CI_3"
        ⟨[], ["Property_CI_3"], false, []⟩ unauthorizedReplyCI3).lockout =
      jsSetAdd [] "Property::CI_3" :=
  (unauthorized_lockout_amended "Property_CI_3" "Property::CI_3"
    ⟨[], ["Property_CI_3"], false, []⟩ unauthorizedReplyCI3
    (by decide) (by decide)).1

/-- C4: `processPair` truncates the pair's table exactly when the pair is
not locked out, the catalog entry has `update_field = N/A`, and
`shouldRunFullSync` grants the run; `shouldRunFullSync` grants a first
encounter with no checkpoint unconditionally, and with a checkpoint exactly
when at least 3 hours (in milliseconds) have elapsed.  In particular a pair
with an update field is never truncated. -/
theorem fullSync_truncate_gate :
    (∀ (env : SyncEnv) (lfs : Option ℚ) (e : SyncEntry) (c : Option String)
        (st : SyncState),
      (DbOp.truncate (tableNameOf e.resource (classListOf e) c) ∈
          (processPair env lfs e c st).2) ↔
        (st.lockout.contains (lockoutKeyOf e.resource c) = false ∧
          e.updateField = "N/A" ∧
          shouldRunFullSync lfs env.now = true)) ∧
    (∀ now : ℚ, shouldRunFullSync none now = true) ∧
    (∀ t now : ℚ,
      shouldRunFullSync (some t) now = true ↔ 3 * (1000 * 60 * 60) ≤ now - t) := by
  refine ⟨?_, fun _ => rfl, ?_⟩
  · intro env lfs e c st
    unfold processPair
    dsimp only
    split_ifs with h1 h2 h3 h4 h5 h6 <;>
      simp_all [fetchLoop_ops_truncate]
  · intro t now
    unfold shouldRunFullSync
    rw [decide_eq_true_iff, ge_iff_le, le_div_iff₀ (by norm_num)]

/-- Witness for C4 at a concrete entry with an update field: no TRUNCATE. -/
theorem fullSync_truncate_gate_witness :
    ¬ (DbOp.truncate
        (tableNameOf "Property" (classListOf
          ⟨"Property", "L_UpdateDate", ["CI_3"], "partial"⟩) (some "CI_3")) ∈
      (processPair ⟨0, fun _ _ => none, fun _ _ _ => exampleEmptyReply, 1⟩
        none ⟨"Property", "L_UpdateDate", ["CI_3"], "partial"⟩ (some "CI_3")
        ⟨[], []⟩).2) := by
  intro hmem
  have h := (fullSync_truncate_gate.1 _ none _ (some "CI_3") _).mp hmem
  exact absurd h.2.1 (by decide)

/-- Helper: inserting pairwise-fresh elements into a JS `Set` appends them. -/
theorem jsSet_foldl_fresh :
    ∀ (xs acc : List Json),
      (∀ x ∈ xs, ∀ y ∈ acc, jsonSameValueZero y x = false) →
      xs.Pairwise (fun a b => jsonSameValueZero a b = false) →
      xs.foldl
        (fun acc x =>
          if acc.any (fun y => jsonSameValueZero y x) then acc else acc ++ [x])
        acc = acc ++ xs := by
  intro xs
  induction xs with
  | nil => intro acc _ _; simp
  | cons x xs ih =>
    intro acc hfresh hpw
    have hany : acc.any (fun y => jsonSameValueZero y x) = false := by
      simp only [List.any_eq_false]
      intro y hy
      simp [hfresh x (by simp) y hy]
    simp only [List.foldl_cons, hany]
    rw [if_neg (by simp [hany])]
    have hfresh' : ∀ z ∈ xs, ∀ y ∈ acc ++ [x], jsonSameValueZero y z = false := by
      intro z hz y hy
      rcases List.mem_append.mp hy with hya | hyx
      · exact hfresh z (by simp [hz]) y hya
      · have : y = x := by simpa using hyx
        subst this
        exact (List.pairwise_cons.mp hpw).1 z hz
    rw [ih (acc ++ [x]) hfresh' (List.pairwise_cons.mp hpw).2]
    simp

/-- C10: loading the lockout file written by `saveLockoutSet` returns the
same set: for every duplicate-free list of lockout keys, the JSON round
trip through `cache/rets_lockout.json` loses no entry and adds none. -/
theorem lockout_roundtrip (s : List String) (h : s.Nodup) :
    loadLockoutSet (saveLockoutSet s) = s.map Json.str := by
  unfold loadLockoutSet saveLockoutSet jsSetFromIterable
  have hp : (s.map Json.str).Pairwise
      (fun a b => jsonSameValueZero a b = false) := by
    rw [List.pairwise_map]
    refine h.imp ?_
    intro a b hne
    simpa [jsonSameValueZero] using hne
  simpa using jsSet_foldl_fresh (s.map Json.str) [] (by simp) hp

/-- Witness for C10 at a concrete two-element lockout set. -/
theorem lockout_roundtrip_witness :
    loadLockoutSet (saveLockoutSet ["Property::CI_3", "Agent::null"]) =
      [Json.str "Property::CI_3", Json.str "Agent::null"] :=
  lockout_roundtrip ["Property::CI_3", "Agent::null"] (by decide)

/-! ### Helper lemmas for the upload-retry theorem -/

theorem uploadGo_attempts_le (s : Nat → Bool) (r : Nat → ℚ) (retries : Nat) :
    ∀ (fuel attempt : Nat), attempt + fuel = retries + 1 →
      (uploadGo s r retries fuel attempt).attempts ≤ retries := by
  intro fuel
  induction fuel with
  | zero =>
    intro attempt h
    unfold uploadGo
    dsimp only
    omega
  | succ n ih =>
    intro attempt h
    unfold uploadGo
    dsimp only
    split_ifs with hs he <;> dsimp only
    · omega
    · omega
    · exact ih (attempt + 1) (by omega)

theorem uploadGo_sleeps_get (s : Nat → Bool) (r : Nat → ℚ) (retries : Nat) :
    ∀ (fuel attempt i : Nat),
      i < (uploadGo s r retries fuel attempt).sleeps.length →
      (uploadGo s r retries fuel attempt).sleeps[i]? =
        some (backoffDelay (r (attempt + i)) (attempt + i)) := by
  intro fuel
  induction fuel with
  | zero =>
    intro attempt i h
    simp [uploadGo] at h
  | succ n ih =>
    intro attempt i
    by_cases hs : s attempt = true
    · intro h
      exfalso
      have hnil : (uploadGo s r retries (n + 1) attempt).sleeps = [] := by
        unfold uploadGo
        rw [if_pos hs]
      rw [hnil] at h
      simp at h
    by_cases he : attempt = retries
    · intro h
      exfalso
      have hnil : (uploadGo s r retries (n + 1) attempt).sleeps = [] := by
        unfold uploadGo
        rw [if_neg hs, if_pos he]
      rw [hnil] at h
      simp at h
    have hexp : (uploadGo s r retries (n + 1) attempt).sleeps =
        backoffDelay (r attempt) attempt ::
          (uploadGo s r retries n (attempt + 1)).sleeps := by
      conv_lhs => rw [uploadGo]
      rw [if_neg hs, if_neg he]
    intro h
    cases i with
    | zero => simp [hexp]
    | succ j =>
      have hlen : j < (uploadGo s r retries n (attempt + 1)).sleeps.length := by
        rw [hexp] at h
        simpa using h
      have hrec := ih (attempt + 1) j hlen
      have harith : attempt + 1 + j = attempt + (j + 1) := by omega
      rw [hexp]
      simpa [harith] using hrec

theorem uploadGo_all_fail (s : Nat → Bool) (r : Nat → ℚ) (retries : Nat)
    (hf : ∀ n, n ≤ retries → s n = false) :
    ∀ (fuel attempt : Nat), attempt + fuel = retries + 1 → 1 ≤ fuel →
      (uploadGo s r retries fuel attempt).ok = false ∧
      (uploadGo s r retries fuel attempt).attempts = retries := by
  intro fuel
  induction fuel with
  | zero => intro attempt h h1; omega
  | succ n ih =>
    intro attempt h _
    unfold uploadGo
    dsimp only
    rw [if_neg (by simp [hf attempt (by omega)])]
    by_cases he : attempt = retries
    · rw [if_pos he]
      exact ⟨rfl, he⟩
    · rw [if_neg he]
      exact ih (attempt + 1) (by omega) (by omega)

/-- C7: `uploadFile` with the default `retries = 5` makes at most 5 attempts
per key; the sleep after failed attempt `n` (the `i`-th sleep, `n = i + 1`,
necessarily with `n < 5`) equals
`min(1 s · 2^(n−1) · (1 + jitter), 30 s)` where `jitter = rand · 0.1` lies in
`[0, 0.1)` whenever `Math.random()`'s value lies in `[0, 1)`; and when all
five attempts fail the error propagates to the caller (`ok = false`) after
exactly 5 attempts. -/
theorem uploadFile_retry_policy :
    (∀ (succeeds : Nat → Bool) (rand : Nat → ℚ),
      (uploadFile succeeds rand 5).attempts ≤ 5) ∧
    (∀ (succeeds : Nat → Bool) (rand : Nat → ℚ) (i : Nat),
      i < (uploadFile succeeds rand 5).sleeps.length →
      (uploadFile succeeds rand 5).sleeps[i]? =
        some (min (1000 * 2 ^ i * (1 + rand (i + 1) * (1 / 10))) 30000)) ∧
    (∀ q : ℚ, 0 ≤ q → q < 1 → 0 ≤ q * (1 / 10) ∧ q * (1 / 10) < 1 / 10) ∧
    (∀ (succeeds : Nat → Bool) (rand : Nat → ℚ),
      (∀ n, n ≤ 5 → succeeds n = false) →
        (uploadFile succeeds rand 5).ok = false ∧
        (uploadFile succeeds rand 5).attempts = 5) := by
  refine ⟨?_, ?_, ?_, ?_⟩
  · intro succeeds rand
    exact uploadGo_attempts_le succeeds rand 5 5 1 (by omega)
  · intro succeeds rand i h
    have hg := uploadGo_sleeps_get succeeds rand 5 5 1 i h
    unfold uploadFile
    rw [hg]
    unfold backoffDelay
    have h1 : 1 + i - 1 = i := by omega
    have h2 : 1 + i = i + 1 := by omega
    rw [h1, h2]
  · intro q h0 h1
    constructor
    · positivity
    · nlinarith
  · intro succeeds rand hf
    exact uploadGo_all_fail succeeds rand 5 hf 5 1 (by omega) (by omega)

/-- Witness for C7: with every attempt failing and zero jitter, the upload
throws after exactly five attempts. -/
theorem uploadFile_retry_policy_witness :
    (uploadFile (fun _ => false) (fun _ => 0) 5).ok = false ∧
    (uploadFile (fun _ => false) (fun _ => 0) 5).attempts = 5 :=
  uploadFile_retry_policy.2.2.2 (fun _ => false) (fun _ => 0)
    (fun _ _ => rfl)

/-! ### Helper lemmas for the lifecycle-reconciler theorem -/

theorem mem_foldl_jsSetAdd :
    ∀ (l acc : List String) (x : String),
      x ∈ l.foldl jsSetAdd acc ↔ x ∈ acc ∨ x ∈ l := by
  intro l
  induction l with
  | nil => simp
  | cons a l ih =>
    intro acc x
    simp only [List.foldl_cons]
    rw [ih]
    unfold jsSetAdd
    split_ifs with hc
    · have ha : a ∈ acc := by simpa using hc
      by_cases hxa : x = a
      · subst hxa
        simp [ha]
      · simp [List.mem_cons, hxa]
    · simp [List.mem_append, List.mem_cons]
      tauto

theorem mem_jsStrSetFrom (l : List String) (x : String) :
    x ∈ jsStrSetFrom l ↔ x ∈ l := by
  simpa [jsStrSetFrom] using mem_foldl_jsSetAdd l [] x

theorem mem_soldMatchIds (soldIds expiredIds : List String)
    (rows : List PropRow) (x : String) :
    x ∈ soldMatchIds soldIds expiredIds rows ↔
      ∃ r ∈ rows, rowSoldCond soldIds r = true ∧ r.L_ListingID = x := by
  unfold soldMatchIds matchingRows
  rw [mem_jsStrSetFrom]
  rw [List.mem_filterMap]
  constructor
  · rintro ⟨r, hr, hf⟩
    rw [List.mem_filter] at hr
    by_cases hc : rowSoldCond soldIds r
    · refine ⟨r, hr.1, hc, ?_⟩
      simpa [hc] using hf
    · simp [hc] at hf
  · rintro ⟨r, hr, hc, hx⟩
    refine ⟨r, ?_, by simp [hc, hx]⟩
    rw [List.mem_filter]
    exact ⟨hr, by simp [hc]⟩

theorem mem_expiredMatchIds (soldIds expiredIds : List String)
    (rows : List PropRow) (x : String) :
    x ∈ expiredMatchIds soldIds expiredIds rows ↔
      ∃ r ∈ rows, rowExpiredCond expiredIds r = true ∧ r.L_ListingID = x := by
  unfold expiredMatchIds matchingRows
  rw [mem_jsStrSetFrom]
  rw [List.mem_filterMap]
  constructor
  · rintro ⟨r, hr, hf⟩
    rw [List.mem_filter] at hr
    by_cases hc : rowExpiredCond expiredIds r
    · refine ⟨r, hr.1, hc, ?_⟩
      simpa [hc] using hf
    · simp [hc] at hf
  · rintro ⟨r, hr, hc, hx⟩
    refine ⟨r, ?_, by simp [hc, hx]⟩
    rw [List.mem_filter]
    exact ⟨hr, by simp [hc]⟩

theorem contains_soldMatchIds (soldIds expiredIds : List String)
    (rows : List PropRow)
    (hnd : (rows.map PropRow.L_ListingID).Nodup)
    (r : PropRow) (hr : r ∈ rows) :
    (soldMatchIds soldIds expiredIds rows).contains r.L_ListingID =
      rowSoldCond soldIds r := by
  by_cases hc : rowSoldCond soldIds r
  · rw [hc]
    have hm := (mem_soldMatchIds soldIds expiredIds rows r.L_ListingID).mpr ⟨r, hr, hc, rfl⟩
    simpa using hm
  · rw [Bool.eq_false_iff.mpr hc]
    rw [Bool.eq_false_iff]
    intro hmem
    have hmem2 : r.L_ListingID ∈ soldMatchIds soldIds expiredIds rows := by
      simpa using hmem
    obtain ⟨q, hq, hqc, hqid⟩ := (mem_soldMatchIds soldIds expiredIds rows r.L_ListingID).mp hmem2
    have : q = r := List.inj_on_of_nodup_map hnd hq hr hqid
    subst this
    exact hc hqc

theorem contains_expiredMatchIds (soldIds expiredIds : List String)
    (rows : List PropRow)
    (hnd : (rows.map PropRow.L_ListingID).Nodup)
    (r : PropRow) (hr : r ∈ rows) :
    (expiredMatchIds soldIds expiredIds rows).contains r.L_ListingID =
      rowExpiredCond expiredIds r := by
  by_cases hc : rowExpiredCond expiredIds r
  · rw [hc]
    have hm := (mem_expiredMatchIds soldIds expiredIds rows r.L_ListingID).mpr ⟨r, hr, hc, rfl⟩
    simpa using hm
  · rw [Bool.eq_false_iff.mpr hc]
    rw [Bool.eq_false_iff]
    intro hmem
    have hmem2 : r.L_ListingID ∈ expiredMatchIds soldIds expiredIds rows := by
      simpa using hmem
    obtain ⟨q, hq, hqc, hqid⟩ := (mem_expiredMatchIds soldIds expiredIds rows r.L_ListingID).mp hmem2
    have : q = r := List.inj_on_of_nodup_map hnd hq hr hqid
    subst this
    exact hc hqc

theorem rowSoldCond_iff (soldIds : List String) (r : PropRow) :
    rowSoldCond soldIds r = true ↔
      (soldIds.contains r.L_ListingID ∧ r.L_StatusCatID ≠ "2") := by
  simp [rowSoldCond, bne_iff_ne]

theorem rowExpiredCond_iff (expiredIds : List String) (r : PropRow) :
    rowExpiredCond expiredIds r = true ↔
      (expiredIds.contains r.L_ListingID ∧
        (r.L_StatusCatID = "1" ∨ r.L_StatusCatID = "2")) := by
  simp [rowExpiredCond]

theorem filter_map_specReconcile (soldIds expiredIds soldM : List String) :
    ∀ (rs : List PropRow),
      (∀ r ∈ rs, soldM.contains r.L_ListingID = rowSoldCond soldIds r) →
      (rs.filter (fun r => !(rowExpiredCond expiredIds r))).map
        (fun r => if soldM.contains r.L_ListingID then
            (⟨r.L_ListingID, r.L_Address, "2"⟩ : PropRow) else r) =
      specReconcile soldIds expiredIds rs := by
  intro rs
  induction rs with
  | nil => intro _; rfl
  | cons r rs ih =>
    intro hca
    rw [List.filter_cons]
    have hcr := hca r (by simp)
    have hrest : ∀ q ∈ rs, soldM.contains q.L_ListingID = rowSoldCond soldIds q :=
      fun q hq => hca q (by simp [hq])
    by_cases hdel : rowExpiredCond expiredIds r = true
    · rw [if_neg (by simp [hdel])]
      conv_rhs => rw [specReconcile]
      rw [if_pos ((rowExpiredCond_iff expiredIds r).mp hdel)]
      exact ih hrest
    · rw [if_pos (by simp [Bool.eq_false_iff.mpr hdel])]
      rw [List.map_cons]
      conv_rhs => rw [specReconcile]
      rw [if_neg (fun hp => hdel ((rowExpiredCond_iff expiredIds r).mpr hp))]
      by_cases hupd : rowSoldCond soldIds r = true
      · rw [if_pos ((rowSoldCond_iff soldIds r).mp hupd)]
        rw [hcr, if_pos hupd]
        rw [ih hrest]
      · rw [if_neg (fun hp => hupd ((rowSoldCond_iff soldIds r).mpr hp))]
        rw [hcr, if_neg (by simp [Bool.eq_false_iff.mpr hupd])]
        rw [ih hrest]

/-- C6: for tables whose listing ids are unique, the reconciler's
UPDATE-then-DELETE pass (`checkPropertyStatusLocal`) acts row by row exactly
as the claim states: a row in the withdrawn-or-expired set with current
status in {"1","2"} is deleted; a row in the sold set with current status ≠
"2" is updated to "2"; every other row is untouched (the code's transform
equals the per-row specification `specReconcile`). -/
theorem checkPropertyStatus_rowwise (soldIds expiredIds : List String)
    (rows : List PropRow)
    (hnd : (rows.map PropRow.L_ListingID).Nodup) :
    checkPropertyStatusLocal soldIds expiredIds rows =
      specReconcile soldIds expiredIds rows := by
  unfold checkPropertyStatusLocal
  dsimp only
  rw [List.filter_map]
  have hfc : List.filter
      ((fun r => !((expiredMatchIds soldIds expiredIds rows).contains
          r.L_ListingID)) ∘
        (fun r => if (soldMatchIds soldIds expiredIds rows).contains
            r.L_ListingID then
          (⟨r.L_ListingID, r.L_Address, "2"⟩ : PropRow) else r)) rows =
      List.filter (fun r => !(rowExpiredCond expiredIds r)) rows := by
    apply List.filter_congr
    intro r hr
    have hid : ((fun r => if (soldMatchIds soldIds expiredIds rows).contains
        r.L_ListingID then
        (⟨r.L_ListingID, r.L_Address, "2"⟩ : PropRow) else r) r).L_ListingID =
        r.L_ListingID := by
      dsimp only
      split_ifs <;> rfl
    simp only [Function.comp]
    rw [hid, contains_expiredMatchIds soldIds expiredIds rows hnd r hr]
  rw [hfc]
  apply filter_map_specReconcile
  intro r hr
  exact contains_soldMatchIds soldIds expiredIds rows hnd r hr

/-- Witness for C6: scenario with ids A (sold, status "1" → updated), B
(withdrawn, status "1" → deleted) and C (expired, status "3" → untouched). -/
theorem checkPropertyStatus_rowwise_witness :
    checkPropertyStatusLocal ["A"] ["B", "C"]
      [⟨"A", "a1", "1"⟩, ⟨"B", "b1", "1"⟩, ⟨"C", "c1", "3"⟩] =
      specReconcile ["A"] ["B", "C"]
        [⟨"A", "a1", "1"⟩, ⟨"B", "b1", "1"⟩, ⟨"C", "c1", "3"⟩] :=
  checkPropertyStatus_rowwise ["A"] ["B", "C"]
    [⟨"A", "a1", "1"⟩, ⟨"B", "b1", "1"⟩, ⟨"C", "c1", "3"⟩] (by decide)

/-- C8 (counterexample): an input carrying a ReplyCode attribute but no
ReplyText still fails with the malformed-response error, although one of the
two attributes is present — the generic branch of `parse` requires both. -/
theorem parse_malformed_counterexample :
    (findReplyCode (jsTrim replyCodeOnlyInput.data)).isSome = true ∧
    RetsParser.parse replyCodeOnlyInput =
      Except.error "Invalid RETS response format" := by
  constructor
  · decide
  · rfl

/-- C8 (amended): for inputs outside the login, metadata and search shapes
(no `<RETS-RESPONSE>`, no `<METADATA-…` tag on the second line, and not both
a `<COLUMNS>` block and a `<DATA>` block), `RetsParser.parse` fails with the
malformed-response error precisely when the `ReplyCode` attribute is absent
OR the `ReplyText` attribute is absent; with both present it succeeds. -/
theorem parse_malformed_amended (input : String)
    (h1 : jsIncludes (String.mk (jsTrim input.data)) "<RETS-RESPONSE>"
      = false)
    (h2 : RetsParser.parseMetadataType (jsTrim input.data) = none)
    (h3 : ¬ ((lazyBetween "<COLUMNS>".data "</COLUMNS>".data
          (jsTrim input.data)).isSome = true ∧
        allLazyBetween "<DATA>".data "</DATA>".data
          (jsTrim input.data).length (jsTrim input.data) ≠ [])) :
    (RetsParser.parse input).isOk = false ↔
      (findReplyCode (jsTrim input.data) = none ∨
        findReplyText (jsTrim input.data) = none) := by
  unfold RetsParser.parse
  dsimp only
  rw [if_neg (by simp [h1])]
  rw [h2]
  dsimp only
  rcases hcb : lazyBetween "<COLUMNS>".data "</COLUMNS>".data
      (jsTrim input.data) with _ | cb
  all_goals rcases hdm : (allLazyBetween "<DATA>".data "</DATA>".data
      (jsTrim input.data).length (jsTrim input.data)) with _ | ⟨d, ds⟩
  · rcases hrc : findReplyCode (jsTrim input.data) with _ | rc <;>
      rcases hrt : findReplyText (jsTrim input.data) with _ | rt <;>
        simp [Except.isOk, Except.toBool]
  · rcases hrc : findReplyCode (jsTrim input.data) with _ | rc <;>
      rcases hrt : findReplyText (jsTrim input.data) with _ | rt <;>
        simp [Except.isOk, Except.toBool]
  · rcases hrc : findReplyCode (jsTrim input.data) with _ | rc <;>
      rcases hrt : findReplyText (jsTrim input.data) with _ | rt <;>
        simp [Except.isOk, Except.toBool]
  · exact absurd ⟨by rw [hcb]; rfl, by rw [hdm]; simp⟩ h3

/-- Witness for C8's amended theorem: a generic-shape input with neither
attribute fails. -/
theorem parse_malformed_amended_witness :
    (RetsParser.parse "just some text").isOk = false ↔
      (findReplyCode (jsTrim "just some text".data) = none ∨
        findReplyText (jsTrim "just some text".data) = none) :=
  parse_malformed_amended "just some text" (by decide) (by decide)
    (by decide)

/-- C9 (counterexample): a 5-byte GetObject body with no multipart boundary
makes `getPropertyPhotos` return one photo (the whole body), not zero — the
sub-100-byte "no photos" guard is not part of `getPropertyPhotos`. -/
theorem getPropertyPhotos_short_counterexample :
    shortBody.length < 100 ∧
    (getPropertyPhotos shortBody none "230475").length = 1 := by
  constructor
  · decide
  · rfl

/-- C9 (amended): `getPhoto` — the GetObject helper carrying the short-body
guard — returns zero photos without raising an error whenever the entire
response body is shorter than 100 bytes. -/
theorem getPhoto_short_body (body : List Char) (ct lm : Option String)
    (h : body.length < 100) :
    getPhoto body ct lm = Except.ok ⟨[], none⟩ := by
  unfold getPhoto
  rw [if_pos h]

/-- Witness for C9's amended theorem at the concrete 5-byte body. -/
theorem getPhoto_short_body_witness :
    getPhoto shortBody (some "multipart/mixed; boundary=abc") none =
      Except.ok ⟨[], none⟩ :=
  getPhoto_short_body shortBody (some "multipart/mixed; boundary=abc") none
    (by decide)

end RetsApp
